import Mathlib

/-!
Shallow embedding of `src/main.py` (FastAPI bulk-data service).

The backing table `large_table` is modelled as a Lean list of records
(`table : List α`, records opaque, in query order).  SQL semantics used by
the code: `SELECT * FROM large_table LIMIT n` returns `table.take n`;
`SELECT * FROM large_table LIMIT c OFFSET o` returns `(table.drop o).take c`;
`SELECT COUNT(*) FROM large_table` returns `table.length`.

A run of a generator is modelled as the pair of (a) the newline-terminated
lines it yields, in order (each Python `yield json.dumps(x) + "\n"` is one
line), and (b) the `generate_file` calls it performs, in order, each
recorded as folder, file name and JSON content.
-/

/-- One call to `generate_file(chunk, chunk_number, output_folder)`:
the file `output_folder/part_{chunk_number}.json` is written (overwriting any
existing file of that name) with `chunk` as its JSON content. -/
structure FileWrite (α : Type) where
  folder : String
  name : String
  content : List α
deriving DecidableEq

/-- File name `part_{chunk_number}.json` used by `generate_file`. -/
def fileName (chunk_number : Nat) : String :=
  "part_" ++ toString chunk_number ++ ".json"

/-- Output of one run of the full-dump generator: yielded lines (each a JSON
array of records, i.e. one chunk) and the files written. -/
structure StreamOut (α : Type) where
  lines : List (List α)
  files : List (FileWrite α)
deriving DecidableEq

/-- The row loop of `get_large_data_chunks` (src/main.py lines 69-82):
`rows` are the rows still to be read from the cursor, `buf` is the Python
`chunk` buffer, `n` the Python `chunk_number`.  Each row is appended to the
buffer; when the buffer reaches `chunk_size` (`c`) it is yielded as one line
and persisted via `generate_file` into folder `chunks`, and the buffer is
cleared.  After the cursor is exhausted a non-empty buffer is yielded as a
final line but NOT persisted (the Python code has no `generate_file` call in
the trailing `if chunk:` block). -/
def dumpLoop (c : Nat) : List α → List α → Nat → StreamOut α
  | [], buf, _ => if buf.isEmpty then ⟨[], []⟩ else ⟨[buf], []⟩
  | r :: rest, buf, n =>
    let buf' := buf ++ [r]
    if c ≤ buf'.length then
      let out := dumpLoop c rest [] (n + 1)
      ⟨buf' :: out.lines, ⟨"chunks", fileName n, buf'⟩ :: out.files⟩
    else
      dumpLoop c rest buf' n

/-- The fixed upper bound in the full-dump SQL:
`SELECT * FROM large_table LIMIT 10000` (src/main.py line 66). -/
def FIXED_LIMIT : Nat := 10000

/-- `get_large_data_chunks(chunk_size)` (src/main.py lines 54-82): streams the
first `FIXED_LIMIT` rows of the table in chunks of `chunk_size`. -/
def get_large_data_chunks (table : List α) (chunk_size : Nat) : StreamOut α :=
  dumpLoop chunk_size (table.take FIXED_LIMIT) [] 1

/-- The `/bulk-data` handler (src/main.py lines 84-92): calls
`get_large_data_chunks()` with its default `chunk_size=1000`. -/
def get_bulk_data (table : List α) : StreamOut α :=
  get_large_data_chunks table 1000

/-- One line yielded by the paginated generator: either a JSON array of
records or the JSON object with message "No more data available". -/
inductive PLine (α : Type) where
  | records : List α → PLine α
  | noMoreData : PLine α
deriving DecidableEq

/-- `get_data_paginated(page, chunk_size)` (src/main.py lines 94-122):
computes `offset = (page - 1) * chunk_size`, runs
`SELECT * FROM large_table LIMIT chunk_size OFFSET offset`, collects all
returned rows into one buffer; if non-empty it yields the buffer as one line
and persists it via `generate_file(chunk, 1, 'chunks_paginated')`, otherwise
it yields the no-more-data object and writes nothing. -/
def get_data_paginated (table : List α) (page chunk_size : Nat) :
    List (PLine α) × List (FileWrite α) :=
  let rows := (table.drop ((page - 1) * chunk_size)).take chunk_size
  if rows.isEmpty then
    ([PLine.noMoreData], [])
  else
    ([PLine.records rows], [⟨"chunks_paginated", fileName 1, rows⟩])

/-- HTTPException as raised by the paginated handler. -/
structure HTTPError where
  status_code : Nat
  detail : String
deriving DecidableEq

/-- The `/bulk-data-paginated` handler (src/main.py lines 124-139, the second
Python function named `get_bulk_data`): rejects `page < 1` or
`chunk_size < 1` with a 400 before running any query or writing any file,
otherwise delegates to `get_data_paginated`.  Parameters are `Int` because
FastAPI parses them as signed integers. -/
def get_bulk_data_paginated (table : List α) (page chunk_size : Int) :
    Except HTTPError (List (PLine α) × List (FileWrite α)) :=
  if page < 1 ∨ chunk_size < 1 then
    Except.error ⟨400, "Page and chunk_size must be greater than 0"⟩
  else
    Except.ok (get_data_paginated table page.toNat chunk_size.toNat)

/-- The `/count-records` handler (src/main.py lines 141-152): returns the
scalar of `SELECT COUNT(*) FROM large_table`, i.e. the number of rows of the
table, with no LIMIT. -/
def count_records (table : List α) : Nat :=
  table.length

/-- Specification-side chunking: split a list into consecutive blocks of
size `c + 1` (the last possibly shorter).  Block size is written `c + 1` so
the recursion terminates; `chunk_size ≥ 1` is always `c + 1` for some `c`. -/
def chunksOfSucc (c : Nat) : List α → List (List α)
  | [] => []
  | x :: xs => (x :: xs.take c) :: chunksOfSucc c (xs.drop c)
termination_by l => l.length
decreasing_by simp [List.length_drop]; omega

/-- The blocks of size exactly `c + 1` (the full chunks); a trailing shorter
block is dropped. -/
def fullBlocks (c : Nat) : List α → List (List α)
  | [] => []
  | x :: xs =>
    if c ≤ xs.length then (x :: xs.take c) :: fullBlocks c (xs.drop c) else []
termination_by l => l.length
decreasing_by simp [List.length_drop]; omega

/-- Number a list of chunks with consecutive `generate_file` calls into the
full-dump folder `chunks`, starting at `chunk_number = n`. -/
def filesFrom (n : Nat) : List (List α) → List (FileWrite α)
  | [] => []
  | b :: bs => ⟨"chunks", fileName n, b⟩ :: filesFrom (n + 1) bs

/-- Effect of one file write on a directory state (path ↦ content):
`open(file_name, "w")` truncates, so the write overwrites. -/
def applyWrite (fs : String → Option (List α)) (w : FileWrite α) :
    String → Option (List α) :=
  fun path => if path = w.folder ++ "/" ++ w.name then some w.content else fs path

/-- Effect of a sequence of file writes, applied in order. -/
def runWrites (fs : String → Option (List α)) : List (FileWrite α) → (String → Option (List α))
  | [] => fs
  | w :: ws => runWrites (applyWrite fs w) ws

/-- Directory state after one paginated call. -/
def runPaginatedFS (fs : String → Option (List α)) (table : List α)
    (page chunk_size : Nat) : String → Option (List α) :=
  runWrites fs (get_data_paginated table page chunk_size).2

/-! Helper lemmas relating the row loop of `get_large_data_chunks` to the
specification-side chunking `chunksOfSucc` / `fullBlocks`. -/

theorem chunksOfSucc_flatten (c : Nat) (l : List α) : (chunksOfSucc c l).flatten = l := by
  induction l using chunksOfSucc.induct c with
  | case1 => simp [chunksOfSucc]
  | case2 x xs ih => simp [chunksOfSucc, ih]

theorem chunksOfSucc_map_length (c : Nat) (l : List α) :
    (chunksOfSucc c l).map List.length
      = List.replicate (l.length / (c + 1)) (c + 1)
        ++ (if l.length % (c + 1) = 0 then [] else [l.length % (c + 1)]) := by
  induction l using chunksOfSucc.induct c with
  | case1 => simp [chunksOfSucc]
  | case2 x xs ih =>
    rw [chunksOfSucc, List.map_cons, ih]
    by_cases h : c ≤ xs.length
    · have hlen : (x :: xs.take c).length = c + 1 := by
        simp [List.length_take]; omega
      have hL : c + 1 ≤ (x :: xs).length := by simp; omega
      have hdl : (xs.drop c).length = (x :: xs).length - (c + 1) := by
        simp [List.length_drop]
      rw [hlen, hdl, Nat.div_eq_sub_div (by omega) hL, Nat.mod_eq_sub_mod hL,
        List.replicate_succ, List.cons_append]
    · have h1 : xs.take c = xs := List.take_of_length_le (by omega)
      have h2 : xs.drop c = [] := List.drop_eq_nil_of_le (by omega)
      have h3 : (x :: xs).length < c + 1 := by simp; omega
      rw [h1, h2, Nat.div_eq_of_lt h3, Nat.mod_eq_of_lt h3]
      simp [chunksOfSucc]

theorem chunksOfSucc_append_block (c : Nat) (b rest : List α) (hb : b.length = c + 1) :
    chunksOfSucc c (b ++ rest) = b :: chunksOfSucc c rest := by
  cases b with
  | nil => simp at hb
  | cons x xs =>
    have hxs : xs.length = c := by simpa using hb
    rw [List.cons_append, chunksOfSucc, ← hxs, List.take_left, List.drop_left]

theorem fullBlocks_append_block (c : Nat) (b rest : List α) (hb : b.length = c + 1) :
    fullBlocks c (b ++ rest) = b :: fullBlocks c rest := by
  cases b with
  | nil => simp at hb
  | cons x xs =>
    have hxs : xs.length = c := by simpa using hb
    rw [List.cons_append, fullBlocks, if_pos (by simp [List.length_append]; omega),
      ← hxs, List.take_left, List.drop_left]

theorem fullBlocks_eq_take (c : Nat) (l : List α) :
    fullBlocks c l = (chunksOfSucc c l).take (l.length / (c + 1)) := by
  induction l using chunksOfSucc.induct c with
  | case1 => simp [fullBlocks, chunksOfSucc]
  | case2 x xs ih =>
    rw [fullBlocks, chunksOfSucc]
    by_cases h : c ≤ xs.length
    · have hL : c + 1 ≤ (x :: xs).length := by simp; omega
      have hdl : (xs.drop c).length = (x :: xs).length - (c + 1) := by
        simp [List.length_drop]
      rw [if_pos h, ih, hdl, Nat.div_eq_sub_div (by omega) hL, List.take_succ_cons]
    · have h3 : (x :: xs).length < c + 1 := by simp; omega
      rw [if_neg h, Nat.div_eq_of_lt h3, List.take_zero]

theorem dumpLoop_lines (c : Nat) (rows : List α) :
    ∀ buf n, buf.length ≤ c → (dumpLoop (c + 1) rows buf n).lines = chunksOfSucc c (buf ++ rows) := by
  induction rows with
  | nil =>
    intro buf n hb
    cases buf with
    | nil => simp [dumpLoop, chunksOfSucc]
    | cons y ys =>
      have hy : ys.length ≤ c := by simp at hb; omega
      have h1 : ys.take c = ys := List.take_of_length_le hy
      have h2 : ys.drop c = [] := List.drop_eq_nil_of_le hy
      simp [dumpLoop, chunksOfSucc, h1, h2]
  | cons r rest ih =>
    intro buf n hb
    by_cases h : c + 1 ≤ (buf ++ [r]).length
    · have hlen : (buf ++ [r]).length = c + 1 := by simp at h ⊢; omega
      have hstep : (dumpLoop (c + 1) (r :: rest) buf n).lines
          = (buf ++ [r]) :: (dumpLoop (c + 1) rest [] (n + 1)).lines := by
        simp only [dumpLoop, if_pos h]
      rw [hstep, ih [] (n + 1) (by simp),
        show buf ++ r :: rest = (buf ++ [r]) ++ rest by simp,
        chunksOfSucc_append_block c _ _ hlen]
      simp
    · have hlen : (buf ++ [r]).length ≤ c := by simp at h ⊢; omega
      have hstep : (dumpLoop (c + 1) (r :: rest) buf n)
          = dumpLoop (c + 1) rest (buf ++ [r]) n := by
        simp only [dumpLoop, if_neg h]
      rw [hstep, ih _ n hlen]
      simp

theorem dumpLoop_files (c : Nat) (rows : List α) :
    ∀ buf n, buf.length ≤ c →
      (dumpLoop (c + 1) rows buf n).files = filesFrom n (fullBlocks c (buf ++ rows)) := by
  induction rows with
  | nil =>
    intro buf n hb
    cases buf with
    | nil => simp [dumpLoop, fullBlocks, filesFrom]
    | cons y ys =>
      have hy : ¬ c ≤ ys.length := by simp at hb; omega
      simp [dumpLoop, fullBlocks, hy, filesFrom]
  | cons r rest ih =>
    intro buf n hb
    by_cases h : c + 1 ≤ (buf ++ [r]).length
    · have hlen : (buf ++ [r]).length = c + 1 := by simp at h ⊢; omega
      have hstep : (dumpLoop (c + 1) (r :: rest) buf n).files
          = ⟨"chunks", fileName n, buf ++ [r]⟩ :: (dumpLoop (c + 1) rest [] (n + 1)).files := by
        simp only [dumpLoop, if_pos h]
      rw [hstep, ih [] (n + 1) (by simp),
        show buf ++ r :: rest = (buf ++ [r]) ++ rest by simp,
        fullBlocks_append_block c _ _ hlen]
      simp [filesFrom]
    · have hlen : (buf ++ [r]).length ≤ c := by simp at h ⊢; omega
      have hstep : (dumpLoop (c + 1) (r :: rest) buf n)
          = dumpLoop (c + 1) rest (buf ++ [r]) n := by
        simp only [dumpLoop, if_neg h]
      rw [hstep, ih _ n hlen]
      simp

theorem ceil_div_spec (R c : Nat) (hc : 1 ≤ c) :
    (R + c - 1) / c = R / c + (if R % c = 0 then 0 else 1) := by
  obtain ⟨q, r, hR, hr⟩ : ∃ q r, R = c * q + r ∧ r < c :=
    ⟨R / c, R % c, (Nat.div_add_mod R c).symm, Nat.mod_lt _ (by omega)⟩
  subst hR
  rw [show c * q + r + c - 1 = c * q + (r + c - 1) by
      rw [Nat.add_assoc, Nat.add_sub_assoc (by omega)],
    Nat.mul_add_div (by omega), Nat.mul_add_div (by omega), Nat.mul_add_mod,
    Nat.div_eq_of_lt hr, Nat.mod_eq_of_lt hr]
  by_cases h0 : r = 0
  · subst h0
    simp [Nat.div_eq_of_lt (show c - 1 < c by omega)]
  · rw [show r + c - 1 = (r - 1) + c by omega, Nat.add_div_right _ (by omega),
      Nat.div_eq_of_lt (show r - 1 < c by omega)]
    simp [h0]

theorem get_large_lines_eq (table : List α) (c : Nat) (hc : 1 ≤ c) :
    (get_large_data_chunks table c).lines
      = chunksOfSucc (c - 1) (table.take FIXED_LIMIT) := by
  obtain ⟨c', rfl⟩ : ∃ c', c = c' + 1 := ⟨c - 1, by omega⟩
  rw [get_large_data_chunks, dumpLoop_lines c' _ [] 1 (by simp)]
  simp

theorem get_large_files_eq (table : List α) (c : Nat) (hc : 1 ≤ c) :
    (get_large_data_chunks table c).files
      = filesFrom 1 (fullBlocks (c - 1) (table.take FIXED_LIMIT)) := by
  obtain ⟨c', rfl⟩ : ∃ c', c = c' + 1 := ⟨c - 1, by omega⟩
  rw [get_large_data_chunks, dumpLoop_files c' _ [] 1 (by simp)]
  simp

theorem get_bulk_flatten_length (table : List α) :
    (get_bulk_data table).lines.flatten.length = min table.length FIXED_LIMIT := by
  rw [get_bulk_data, get_large_lines_eq table 1000 (by omega), chunksOfSucc_flatten,
    List.length_take]
  omega

/-! Claim theorems. -/

/-- C1: for every `chunk_size ≥ 1` and table with `R ≤ 10000` rows, the
full-dump stream yields exactly `⌈R / chunk_size⌉` JSON-array lines; the
chunk lengths are `chunk_size` for the first `⌊R / chunk_size⌋` chunks
followed by `R % chunk_size` for the last (absent when `R` divides evenly,
in which case every chunk has length `chunk_size`); and concatenating the
chunks in emission order reproduces the table's rows exactly, in query
order, with no duplication or loss. -/
theorem full_dump_chunking (table : List α) (c : Nat) (hc : 1 ≤ c)
    (hR : table.length ≤ FIXED_LIMIT) :
    (get_large_data_chunks table c).lines.length = (table.length + c - 1) / c
  ∧ (get_large_data_chunks table c).lines.map List.length
      = List.replicate (table.length / c) c
        ++ (if table.length % c = 0 then [] else [table.length % c])
  ∧ (get_large_data_chunks table c).lines.flatten = table := by
  have htake : table.take FIXED_LIMIT = table := List.take_of_length_le hR
  obtain ⟨c', rfl⟩ : ∃ c', c = c' + 1 := ⟨c - 1, by omega⟩
  rw [get_large_lines_eq table _ (by omega), htake]
  simp only [Nat.add_sub_cancel]
  refine ⟨?_, chunksOfSucc_map_length c' table, chunksOfSucc_flatten c' table⟩
  have hmap := congrArg List.length (chunksOfSucc_map_length c' table)
  rw [List.length_map, List.length_append, List.length_replicate,
    apply_ite List.length] at hmap
  rw [hmap, ceil_div_spec table.length (c' + 1) (by omega)]
  by_cases h0 : table.length % (c' + 1) = 0 <;> simp [h0]

/-- C1 witness: table of 5 rows, `chunk_size = 2` gives 3 lines of lengths
`[2, 2, 1]` whose concatenation is the table. -/
theorem full_dump_chunking_witness :
    1 ≤ 2 ∧ ([0, 1, 2, 3, 4] : List Nat).length ≤ FIXED_LIMIT
  ∧ ((get_large_data_chunks ([0, 1, 2, 3, 4] : List Nat) 2).lines.length
        = (([0, 1, 2, 3, 4] : List Nat).length + 2 - 1) / 2
    ∧ (get_large_data_chunks ([0, 1, 2, 3, 4] : List Nat) 2).lines.map List.length
        = List.replicate (([0, 1, 2, 3, 4] : List Nat).length / 2) 2
          ++ (if ([0, 1, 2, 3, 4] : List Nat).length % 2 = 0 then []
              else [([0, 1, 2, 3, 4] : List Nat).length % 2])
    ∧ (get_large_data_chunks ([0, 1, 2, 3, 4] : List Nat) 2).lines.flatten
        = [0, 1, 2, 3, 4]) :=
  ⟨by decide, by decide, full_dump_chunking [0, 1, 2, 3, 4] 2 (by decide) (by decide)⟩

/-- C2 counterexample: a full dump of a 1-row table (default
`chunk_size = 1000`) streams one chunk (`k = 1`), but the set of files
written is empty, not `{part_1.json}` with that chunk's content: the Python
code never calls `generate_file` for the trailing partial chunk (the
`if chunk:` block at src/main.py lines 80-81 only yields). -/
theorem full_dump_files_cex :
    (get_bulk_data ([0] : List Nat)).lines.length = 1
  ∧ ¬ ((get_bulk_data ([0] : List Nat)).files
        = filesFrom 1 (get_bulk_data ([0] : List Nat)).lines) := by
  constructor
  · decide
  · decide

/-- C2 amended: during a full dump every FULL chunk (of exactly
`chunk_size` records) is persisted to `chunks/part_n.json` at the moment it
is flushed, numbered consecutively from 1 in emission order with the file
content equal to the streamed chunk; the set of files written is therefore
`{part_1.json, …, part_⌊R/chunk_size⌋.json}`.  The final partial chunk, when
`R % chunk_size ≠ 0`, is streamed but never persisted. -/
theorem full_dump_files_amended (table : List α) (c : Nat) (hc : 1 ≤ c)
    (hR : table.length ≤ FIXED_LIMIT) :
    (get_large_data_chunks table c).files
      = filesFrom 1 ((get_large_data_chunks table c).lines.take (table.length / c)) := by
  have htake : table.take FIXED_LIMIT = table := List.take_of_length_le hR
  obtain ⟨c', rfl⟩ : ∃ c', c = c' + 1 := ⟨c - 1, by omega⟩
  rw [get_large_files_eq table _ (by omega), get_large_lines_eq table _ (by omega), htake]
  simp only [Nat.add_sub_cancel]
  rw [fullBlocks_eq_take]

/-- C2 amended witness: 3 rows with `chunk_size = 2`: two chunks are
streamed, only the first (full) one is persisted, as `part_1.json`. -/
theorem full_dump_files_amended_witness :
    1 ≤ 2 ∧ ([5, 6, 7] : List Nat).length ≤ FIXED_LIMIT
  ∧ (get_large_data_chunks ([5, 6, 7] : List Nat) 2).files
      = filesFrom 1 ((get_large_data_chunks ([5, 6, 7] : List Nat) 2).lines.take
          (([5, 6, 7] : List Nat).length / 2)) :=
  ⟨by decide, by decide, full_dump_files_amended [5, 6, 7] 2 (by decide) (by decide)⟩

/-- Evaluation of `get_data_paginated` when the page window contains rows. -/
theorem get_data_paginated_pos (table : List α) (p c : Nat)
    (h : (table.drop ((p - 1) * c)).take c ≠ []) :
    get_data_paginated table p c
      = ([PLine.records ((table.drop ((p - 1) * c)).take c)],
         [⟨"chunks_paginated", fileName 1, (table.drop ((p - 1) * c)).take c⟩]) := by
  unfold get_data_paginated
  rw [if_neg]
  simp only [List.isEmpty_iff]
  exact h

/-- Evaluation of `get_data_paginated` when the page window is beyond the
table (`LIMIT chunk_size OFFSET offset` returns no rows). -/
theorem get_data_paginated_empty (table : List α) (p c : Nat)
    (h : table.length ≤ (p - 1) * c) :
    get_data_paginated table p c = ([PLine.noMoreData], []) := by
  have hd : table.drop ((p - 1) * c) = [] := List.drop_eq_nil_of_le h
  unfold get_data_paginated
  rw [hd]
  simp

/-- C3 counterexample: over a table of 10001 rows, `page = 10001`,
`chunk_size = 1` has offset `10000 < R`, yet the paginated stream returns
the table's row 10001 while slicing the full-dump row sequence (which the
fixed `LIMIT 10000` caps at 10000 rows) at that offset yields no records:
the paginated query has no such cap, so the claim as stated fails for
tables larger than the fixed LIMIT. -/
theorem paginated_slice_cex :
    (10001 - 1) * 1 < (List.replicate 10001 (0 : Nat)).length
  ∧ (get_data_paginated (List.replicate 10001 (0 : Nat)) 10001 1).1
      ≠ [PLine.records
          ((((List.replicate 10001 (0 : Nat)).take FIXED_LIMIT).drop ((10001 - 1) * 1)).take
            (min 1 ((List.replicate 10001 (0 : Nat)).length - (10001 - 1) * 1)))] := by
  constructor
  · norm_num
  · have hrows : ((List.replicate 10001 (0 : Nat)).drop ((10001 - 1) * 1)).take 1 = [0] := by
      norm_num [List.drop_replicate, List.take_replicate]
    have hslice : (((List.replicate 10001 (0 : Nat)).take FIXED_LIMIT).drop ((10001 - 1) * 1)).take
        (min 1 ((List.replicate 10001 (0 : Nat)).length - (10001 - 1) * 1)) = [] := by
      norm_num [FIXED_LIMIT, List.drop_replicate, List.take_replicate]
    rw [hslice, get_data_paginated_pos _ _ _ (by rw [hrows]; exact List.cons_ne_nil 0 []),
      hrows]
    simp

/-- C3 amended: for `page ≥ 1`, `chunk_size ≥ 1` over a table with `R`
rows, if `(page-1)*chunk_size < R` the paginated stream returns exactly the
slice of the TABLE's row sequence at offset `(page-1)*chunk_size` with
length `min chunk_size (R - offset)` (this coincides with slicing the
full-dump row sequence only when the window lies within the fixed LIMIT
10000), and if the offset is `≥ R` it returns the no-more-data status
object instead. -/
theorem paginated_slice_amended (table : List α) (p c : Nat) (hp : 1 ≤ p) (hc : 1 ≤ c) :
    ((p - 1) * c < table.length →
      (get_data_paginated table p c).1
          = [PLine.records ((table.drop ((p - 1) * c)).take c)]
        ∧ ((table.drop ((p - 1) * c)).take c).length
            = min c (table.length - (p - 1) * c))
  ∧ (table.length ≤ (p - 1) * c →
      (get_data_paginated table p c).1 = [PLine.noMoreData]) := by
  constructor
  · intro h
    have hlen : ((table.drop ((p - 1) * c)).take c).length
        = min c (table.length - (p - 1) * c) := by
      rw [List.length_take, List.length_drop]
    have hne : (table.drop ((p - 1) * c)).take c ≠ [] := by
      rw [← List.length_pos_iff_ne_nil, hlen]
      omega
    rw [get_data_paginated_pos _ _ _ hne]
    exact ⟨rfl, hlen⟩
  · intro h
    rw [get_data_paginated_empty _ _ _ h]

/-- C3 amended witness: 5-row table, `page = 3`, `chunk_size = 2`: offset 4
is below `R = 5`, and the stream returns the one-record slice (row 5). -/
theorem paginated_slice_amended_witness :
    1 ≤ 3 ∧ 1 ≤ 2
  ∧ (((3 - 1) * 2 < ([10, 11, 12, 13, 14] : List Nat).length →
      (get_data_paginated ([10, 11, 12, 13, 14] : List Nat) 3 2).1
          = [PLine.records ((([10, 11, 12, 13, 14] : List Nat).drop ((3 - 1) * 2)).take 2)]
        ∧ ((([10, 11, 12, 13, 14] : List Nat).drop ((3 - 1) * 2)).take 2).length
            = min 2 (([10, 11, 12, 13, 14] : List Nat).length - (3 - 1) * 2))
    ∧ (([10, 11, 12, 13, 14] : List Nat).length ≤ (3 - 1) * 2 →
      (get_data_paginated ([10, 11, 12, 13, 14] : List Nat) 3 2).1 = [PLine.noMoreData])) :=
  ⟨by decide, by decide, paginated_slice_amended [10, 11, 12, 13, 14] 3 2 (by decide) (by decide)⟩

/-- C4: the `/bulk-data` endpoint never streams more rows than the
hardcoded `LIMIT 10000`: the total number of records across all streamed
chunks is exactly `min R 10000` for a table of `R` rows. -/
theorem bulk_data_capped (table : List α) :
    (get_bulk_data table).lines.flatten.length = min table.length FIXED_LIMIT
  ∧ FIXED_LIMIT = 10000 :=
  ⟨get_bulk_flatten_length table, rfl⟩

/-- C5: the `/count-records` endpoint returns the table's full row count
(`SELECT COUNT(*)` has no LIMIT), independent of the fixed LIMIT that caps
the full dump: the dump streams only `min (count) 10000` records while the
count itself is the full `R`, even when `R > 10000`. -/
theorem count_records_total (table : List α) :
    count_records table = table.length
  ∧ (get_bulk_data table).lines.flatten.length = min (count_records table) FIXED_LIMIT :=
  ⟨rfl, get_bulk_flatten_length table⟩

/-- C6: the `/bulk-data-paginated` handler rejects any request with
`page < 1` or `chunk_size < 1` with HTTP 400 and message "Page and
chunk_size must be greater than 0"; the error is returned instead of a
stream, so no query runs and no file is written. -/
theorem paginated_rejects_invalid (table : List α) (page chunk_size : Int)
    (h : page < 1 ∨ chunk_size < 1) :
    get_bulk_data_paginated table page chunk_size
      = Except.error ⟨400, "Page and chunk_size must be greater than 0"⟩ := by
  unfold get_bulk_data_paginated
  rw [if_pos h]

/-- C6 witness: `page = 0` is rejected with the 400 error. -/
theorem paginated_rejects_invalid_witness :
    ((0 : Int) < 1 ∨ (100 : Int) < 1)
  ∧ get_bulk_data_paginated ([0] : List Nat) 0 100
      = Except.error ⟨400, "Page and chunk_size must be greater than 0"⟩ :=
  ⟨Or.inl (by decide), paginated_rejects_invalid [0] 0 100 (Or.inl (by decide))⟩

/-- C7: when the requested page lies beyond the available data (the bounded
query returns zero rows, in particular for an empty table), the paginated
stream emits exactly one line, the no-more-data status object, and performs
no file write. -/
theorem paginated_beyond_data (table : List α) (p c : Nat) (hp : 1 ≤ p) (hc : 1 ≤ c)
    (h : table.length ≤ (p - 1) * c) :
    get_data_paginated table p c = ([PLine.noMoreData], []) :=
  get_data_paginated_empty table p c h

/-- C7 witness: `page = 1`, `chunk_size = 1` against the empty table yields
the status line and writes no file. -/
theorem paginated_beyond_data_witness :
    1 ≤ 1 ∧ 1 ≤ 1 ∧ ([] : List Nat).length ≤ (1 - 1) * 1
  ∧ get_data_paginated ([] : List Nat) 1 1 = ([PLine.noMoreData], []) :=
  ⟨by decide, by decide, by decide, paginated_beyond_data [] 1 1 (by decide) (by decide) (by decide)⟩

/-- C8: every non-empty paginated call persists its single chunk into the
separate folder `chunks_paginated` under the fixed name `part_1.json` (the
chunk number is always 1, never incremented across calls), and since
`open(..., "w")` overwrites, repeating the identical call leaves the
directory state unchanged: running the call twice equals running it once,
and no other file name is ever written. -/
theorem paginated_persists_part1 (fs : String → Option (List α)) (table : List α)
    (p c : Nat) (hne : (table.drop ((p - 1) * c)).take c ≠ []) :
    (get_data_paginated table p c).2
      = [⟨"chunks_paginated", "part_1.json", (table.drop ((p - 1) * c)).take c⟩]
  ∧ runPaginatedFS (runPaginatedFS fs table p c) table p c = runPaginatedFS fs table p c := by
  have hw : (get_data_paginated table p c).2
      = [⟨"chunks_paginated", "part_1.json", (table.drop ((p - 1) * c)).take c⟩] := by
    rw [get_data_paginated_pos _ _ _ hne]
    rfl
  refine ⟨hw, ?_⟩
  unfold runPaginatedFS
  rw [hw]
  funext path
  simp only [runWrites, applyWrite]
  split <;> rfl

/-- C8 witness: `page = 1`, `chunk_size = 1` on a 2-row table writes
exactly `chunks_paginated/part_1.json`, and repeating the call is
idempotent on the directory state. -/
theorem paginated_persists_part1_witness :
    ((([0, 1] : List Nat).drop ((1 - 1) * 1)).take 1 ≠ [])
  ∧ ((get_data_paginated ([0, 1] : List Nat) 1 1).2
        = [⟨"chunks_paginated", "part_1.json", (([0, 1] : List Nat).drop ((1 - 1) * 1)).take 1⟩]
    ∧ runPaginatedFS (runPaginatedFS (fun _ => none) ([0, 1] : List Nat) 1 1) ([0, 1] : List Nat) 1 1
        = runPaginatedFS (fun _ => none) ([0, 1] : List Nat) 1 1) :=
  ⟨by decide, paginated_persists_part1 (fun _ => none) [0, 1] 1 1 (by decide)⟩

/-- C9: every invocation of the paginated stream yields exactly one line —
either the JSON array of records or the status object — never zero lines
and never more than one, for any page, chunk size, and table state. -/
theorem paginated_single_line (table : List α) (p c : Nat) :
    ((get_data_paginated table p c).1).length = 1 := by
  simp only [get_data_paginated]
  split <;> rfl

/-- C10: both export operations are deterministic: their outputs (streamed
lines and file writes) are functions of the table contents and the request
parameters alone, so two runs on equal inputs produce identical outputs. -/
theorem exports_deterministic (t₁ t₂ : List α) (c₁ c₂ p₁ p₂ : Nat)
    (ht : t₁ = t₂) (hc : c₁ = c₂) (hp : p₁ = p₂) :
    get_large_data_chunks t₁ c₁ = get_large_data_chunks t₂ c₂
  ∧ get_data_paginated t₁ p₁ c₁ = get_data_paginated t₂ p₂ c₂ := by
  subst ht; subst hc; subst hp
  exact ⟨rfl, rfl⟩

/-- C10 witness: two runs over the same 2-row table with the same
parameters produce identical outputs. -/
theorem exports_deterministic_witness :
    (([0, 1] : List Nat) = [0, 1]) ∧ ((2 : Nat) = 2) ∧ ((1 : Nat) = 1)
  ∧ (get_large_data_chunks ([0, 1] : List Nat) 2 = get_large_data_chunks ([0, 1] : List Nat) 2
    ∧ get_data_paginated ([0, 1] : List Nat) 1 2 = get_data_paginated ([0, 1] : List Nat) 1 2) :=
  ⟨rfl, rfl, rfl, exports_deterministic [0, 1] [0, 1] 2 2 1 1 rfl rfl rfl⟩
